import Mathlib

/-!
Verification of the Monocle notification engine (`monocle/notifier.py`,
`monocle/notifyconfig.py`) against its natural-language specification.

The embedding below translates the relevant Python code into Lean:

* variable contexts (`testvars` dicts / `ChainMap`s) become `String → Option ℚ`;
* a rule test (a callable that returns a bool or raises
  `KeyError(variable-name)`) becomes `Ctx → Except String Bool`, where
  `Except.error name` stands for `KeyError(name)`;
* floating point arithmetic is embedded as exact rational arithmetic;
* clock reads (`time.monotonic()`) are replaced by an explicit elapsed-time
  argument.
-/

namespace Monocle

/-- A variable context: a mapping from event-variable names to values, with
`none` meaning the key is absent (a lookup raises `KeyError`). -/
def Ctx : Type := String → Option ℚ

/-- A rule test (`notifyconfig._GetOper` instance or any other callable):
given a context it returns a boolean or raises `KeyError(name)`, modelled as
`Except.error name`. -/
def Test : Type := Ctx → Except String Bool

/-- A comparison test built from `_Getter(key)` and a predicate on the looked
up value, mirroring `_GetOper.__call__`: resolves the getter on the mapping
(raising `KeyError(key)` when absent) and applies the operator. -/
def getterTest (key : String) (p : ℚ → Bool) : Test := fun ctx =>
  match ctx key with
  | some v => Except.ok (p v)
  | none => Except.error key

/-- ChainMap child layer: `testvars.new_child({key: v})` puts the new mapping
in front, shadowing the parent context. -/
def newChild (ctx : Ctx) (key : String) (v : ℚ) : Ctx := fun k =>
  if k = key then some v else ctx k

/-- The derived-cooldown merge performed by `SpawnNotifier._match_rules`:
`ChainMap(testvars, \x7b'cooldown': channel.cooldown.get()\x7d)` — the base
testvars shadow the cooldown layer. -/
def chainCooldown (testvars : Ctx) (cd : ℚ) : Ctx := fun k =>
  match testvars k with
  | some v => some v
  | none => if k = "cooldown" then some cd else none

/-! ## Cooldown (`_Cooldown`)

`_Cooldown.get()` reads `monotonic() - self._prior`; we pass that elapsed
time explicitly.  `__init__` sets `_prior = monotonic() - duration / 2`, so
the elapsed time immediately after construction is `duration / 2`. -/

/-- Translation of `_Cooldown.get()`:
returns `idle` when `not self._diff or not self._duration`, returns `idle`
when `progress >= 1`, and otherwise `busy - diff * progress` where
`progress = elapsed / duration`. -/
def cooldownGet (busy idle duration elapsed : ℚ) : ℚ :=
  if busy - idle = 0 ∨ duration = 0 then idle
  else if 1 ≤ elapsed / duration then idle
  else busy - (busy - idle) * (elapsed / duration)

/-- Elapsed time right after `_Cooldown.__init__`, which sets
`self._prior = monotonic() - duration / 2`. -/
def cooldownInitialElapsed (duration : ℚ) : ℚ := duration / 2

/-! ## Rules and rule matching

A rule (`Channel.spawnrules` / `Channel.raidrules` values) is either a
literal boolean or a list of tests (AND semantics).  A rule map is a Python
dict from pokedex number to a rule list, with an optional entry under the
`...` (Ellipsis) key serving as the fallback rule list. -/

/-- A notification rule: a literal boolean or a collection of tests. -/
inductive MRule where
  | lit : Bool → MRule
  | tests : List Test → MRule

/-- A rule map: `\x7bpokedex-number: rule-list\x7d` plus the `...` fallback
entry (`fallback = []` models an absent `...` key). -/
structure RuleMap where
  entries : List (Nat × List MRule)
  fallback : List MRule

/-- Rule-list selection `rules.get(dexno) or rules.get(...) or ()`: an absent
or empty specific rule list falls back to the `...` entry, and an absent or
empty `...` entry yields the empty tuple. -/
def selectRules (rm : RuleMap) (dexno : Nat) : List MRule :=
  let specific := (rm.entries.lookup dexno).getD []
  if specific.isEmpty then rm.fallback else specific

/-- Evaluation of `all(run_test(test) for test in tests)`: lazy conjunction
that short-circuits on the first `False` and propagates the first raised
`KeyError`. -/
def evalTests (run : Test → Except String Bool) : List Test → Except String Bool
  | [] => Except.ok true
  | t :: ts =>
    match run t with
    | Except.error e => Except.error e
    | Except.ok false => Except.ok false
    | Except.ok true => evalTests run ts

/-- The shared rule loop of `SpawnNotifier._match_rules` and
`FortNotifier._match_raid_rules`:

for each rule, `if isinstance(rule, bool): return rule`;
otherwise `if all(run_test(test) for test in rule): return True`,
with `except KeyError: continue`; `return False` after the loop. -/
def matchRuleList (run : Test → Except String Bool) : List MRule → Bool
  | [] => false
  | MRule.lit b :: _ => b
  | MRule.tests ts :: rest =>
    match evalTests run ts with
    | Except.ok true => true
    | Except.ok false => matchRuleList run rest
    | Except.error _ => matchRuleList run rest

/-- The optimistic test runner defined inside `SpawnNotifier._match_rules`
when `optimism` is set.  `enc` is the truth value of `conf.ENCOUNTER`:

on `KeyError(name)`: if `conf.ENCOUNTER` is unset, return `False`;
if `name == 'score'`, look up `testvars['rareness']` (a further `KeyError`
propagates) and return
`any(test(testvars.new_child(\x7b'score': s\x7d)) for s in ((rareness + 1) / 2, rareness / 2))`;
otherwise return `True`. -/
def runTestOpt (enc : Bool) (ctx : Ctx) (t : Test) : Except String Bool :=
  match t ctx with
  | Except.ok b => Except.ok b
  | Except.error name =>
    if !enc then Except.ok false
    else if name = "score" then
      match ctx "rareness" with
      | none => Except.error "rareness"
      | some rareness =>
        match t (newChild ctx "score" ((rareness + 1) / 2)) with
        | Except.error e => Except.error e
        | Except.ok true => Except.ok true
        | Except.ok false => t (newChild ctx "score" (rareness / 2))
    else Except.ok true

/-- Classification of the first argument of a `KeyError` raised by a sender:
an `Event` subclass (the documented unsupported-event-kind signal), some
other class, a non-class value such as a string, or no argument at all. -/
inductive KEArg where
  | eventCls : KEArg
  | otherCls : KEArg
  | nonCls : KEArg
  | noArgs : KEArg
  deriving DecidableEq

/-- Outcome of one sender's `send(event, attachments)` call, as observed by
`_multi_send` after `gather(..., return_exceptions=True)`: success, a raised
`KeyError` (classified by what its first `args` element is, since
`_multi_send` runs `issubclass(result.args[0], Event)` on it), or any other
raised exception. -/
inductive SendResult where
  | ok : SendResult
  | keyError : KEArg → SendResult
  | otherExc : SendResult
  deriving DecidableEq

/-- A channel as far as spawn matching and notification are concerned:
its spawn law, its spawn rule map, the current value of its cooldown
(the result of `channel.cooldown.get()` inside `_match_rules`), and the
per-sender `send` outcomes of its sender list. -/
structure MChannel where
  spawnlaw : List Test
  spawnrules : RuleMap
  cooldownVal : ℚ
  senders : List SendResult

/-- Translation of `SpawnNotifier._match_rules(channel, dexno, testvars,
optimism)`.  A `Except.error name` result is a `KeyError` escaping the
method (possible only from law evaluation, since the rule loop catches
`KeyError`). -/
def spawnMatchRules (enc : Bool) (ch : MChannel) (dexno : Nat) (testvars : Ctx)
    (optimism : Bool) : Except String Bool :=
  let ctx := chainCooldown testvars ch.cooldownVal
  let run : Test → Except String Bool :=
    if optimism then fun t => runTestOpt enc ctx t else fun t => t ctx
  match evalTests run ch.spawnlaw with
  | Except.error e => Except.error e
  | Except.ok false => Except.ok false
  | Except.ok true => Except.ok (matchRuleList run (selectRules ch.spawnrules dexno))

/-- Key selection in `FortNotifier._match_raid_rules`:
`dexno = testvars.get('dexno', ...)`, so a raid egg (no `dexno`) consults the
fallback entry directly. -/
def raidSelect (rm : RuleMap) (dexnoOpt : Option Nat) : List MRule :=
  match dexnoOpt with
  | some d => selectRules rm d
  | none => rm.fallback

/-- Translation of `FortNotifier._match_raid_rules`: no law, no optimism,
strict test evaluation with the shared rule loop. -/
def matchRaidRules (rm : RuleMap) (dexnoOpt : Option Nat) (testvars : Ctx) : Bool :=
  matchRuleList (fun t => t testvars) (raidSelect rm dexnoOpt)

/-! ## Rareness (`SpawnNotifier._make_rareness_dict`)

The configuration globals read by the method become parameters:
`notifyRanking` for `conf.NOTIFY_RANKING` (0 models a falsy/unset value),
`alwaysNotify` for `conf.ALWAYS_NOTIFY`, `legacyBugs` for
`conf.EMULATE_LEGACY_RARITY_BUGS`, `alwaysIds` for `conf.ALWAYS_NOTIFY_IDS`
and `override` for `conf.RARITY_OVERRIDE`. -/

/-- Python dict lookup for a dict built by binding the `pairs` in order:
a later binding for the same key overwrites an earlier one, exactly as in a
dict comprehension followed by `dict.update`. -/
def pyDictGet (pairs : List (Nat × ℚ)) (k : Nat) : Option ℚ :=
  pairs.foldl (fun acc p => if p.1 = k then some p.2 else acc) none

/-- Ranking truncation: when `conf.NOTIFY_RANKING` is truthy,
`ranking = ranking[:max(conf.NOTIFY_RANKING, conf.ALWAYS_NOTIFY)]`. -/
def rarenessRanking (notifyRanking alwaysNotify : Nat) (ranking : List Nat) :
    List Nat :=
  if notifyRanking ≠ 0 then ranking.take (max notifyRanking alwaysNotify)
  else ranking

/-- The `exclude` set: the head of the truncated ranking
(`set(ranking[:conf.ALWAYS_NOTIFY])`) when `conf.NOTIFY_RANKING` is truthy,
united with `conf.ALWAYS_NOTIFY_IDS` under `EMULATE_LEGACY_RARITY_BUGS`. -/
def rarenessExclude (notifyRanking alwaysNotify : Nat) (legacyBugs : Bool)
    (alwaysIds : Finset Nat) (ranking : List Nat) : Finset Nat :=
  (if notifyRanking ≠ 0 then
    ((rarenessRanking notifyRanking alwaysNotify ranking).take
      alwaysNotify).toFinset
   else ∅) ∪ (if legacyBugs then alwaysIds else ∅)

/-- The `origin` offset: `min(len(exclude), len(ranking))` when `exclude` is
nonempty, else 0. -/
def rarenessOrigin (notifyRanking alwaysNotify : Nat) (legacyBugs : Bool)
    (alwaysIds : Finset Nat) (ranking : List Nat) : Nat :=
  if rarenessExclude notifyRanking alwaysNotify legacyBugs alwaysIds ranking = ∅
  then 0
  else min
    (rarenessExclude notifyRanking alwaysNotify legacyBugs alwaysIds
      ranking).card
    (rarenessRanking notifyRanking alwaysNotify ranking).length

/-- The divisor `steps = max(count - origin, 1)`. -/
def rarenessSteps (notifyRanking alwaysNotify : Nat) (legacyBugs : Bool)
    (alwaysIds : Finset Nat) (ranking : List Nat) : Nat :=
  max ((rarenessRanking notifyRanking alwaysNotify ranking).length -
    rarenessOrigin notifyRanking alwaysNotify legacyBugs alwaysIds ranking) 1

/-- The computed rareness value `1 - (i - origin) / steps` for index `i` of
the (truncated) ranking. -/
def rarenessValue (origin steps i : Nat) : ℚ :=
  1 - ((i : ℚ) - (origin : ℚ)) / (steps : ℚ)

/-- Translation of `SpawnNotifier._make_rareness_dict`: the dict
comprehension `\x7branking[i]: 1 - (i - origin) / steps for i in range(count)\x7d`
followed by `rareness.update(conf.RARITY_OVERRIDE)`, read back as a lookup. -/
def makeRarenessDict (notifyRanking alwaysNotify : Nat) (legacyBugs : Bool)
    (alwaysIds : Finset Nat) (override : List (Nat × ℚ))
    (ranking : List Nat) (k : Nat) : Option ℚ :=
  pyDictGet
    ((rarenessRanking notifyRanking alwaysNotify ranking).enum.map
      (fun p => (p.2, rarenessValue
        (rarenessOrigin notifyRanking alwaysNotify legacyBugs alwaysIds ranking)
        (rarenessSteps notifyRanking alwaysNotify legacyBugs alwaysIds ranking)
        p.1)) ++ override) k

/-! ## Fan-out delivery (`_multi_send`)

`gather(*calls, return_exceptions=True)` invokes every sender's
`send(event, attachments)` and produces one result per sender; the model
takes that per-sender result list as input. -/

/-- The per-result body of the logging loop in `_multi_send`.  For a
`KeyError` result the code evaluates `issubclass(result.args[0], Event)`:
`result.args[0]` raises `IndexError` when the `KeyError` carries no
argument, and `issubclass` raises `TypeError` when the argument is not a
class; every other result is merely logged. -/
def logSendResult : SendResult → Except String Unit
  | SendResult.keyError KEArg.noArgs => Except.error "IndexError"
  | SendResult.keyError KEArg.nonCls => Except.error "TypeError"
  | _ => Except.ok ()

/-- The logging loop `for sender, result in zip(senders, results)`: stops at
the first raising iteration. -/
def logSendResults : List SendResult → Except String Unit
  | [] => Except.ok ()
  | r :: rs =>
    match logSendResult r with
    | Except.error e => Except.error e
    | Except.ok _ => logSendResults rs

/-- Whether a gathered result counts as a success
(`not isinstance(r, Exception)`). -/
def isSendOk : SendResult → Bool
  | SendResult.ok => true
  | _ => false

/-- Translation of `_multi_send`: all sends have already been issued and
gathered into `results`; the logging loop runs (possibly raising), then
`len([r for r in results if not isinstance(r, Exception)])` is returned. -/
def multiSend (results : List SendResult) : Except String Nat :=
  match logSendResults results with
  | Except.error e => Except.error e
  | Except.ok _ => Except.ok (results.countP (fun r => isSendOk r))

/-! ## De-duplication (`_TempSet`) and the spawn notify path -/

/-- Translation of `_TempSet._Manager.__enter__`: raises
`ValueError("duplicate item: ...")` when the item is already in the set,
otherwise adds it. -/
def tempAddEnter (items : List Nat) (item : Nat) : Except String (List Nat) :=
  if item ∈ items then Except.error ("duplicate item: " ++ toString item)
  else Except.ok (item :: items)

/-- Translation of `_TempSet._Manager.__exit__`: with a pending `keep`
delay the item stays in the set (it is discarded only later by a scheduled
event-loop callback), otherwise it is discarded immediately. -/
def tempAddExit (items : List Nat) (item : Nat) (keep : Bool) : List Nat :=
  if keep then items else items.erase item

/-- The channel-matching pass of `SpawnNotifier.notify`:
`[c for c in self._channelmap.values() if self._match_rules(c, dexno,
testvars)]`, recorded as per-channel match booleans; an escaping `KeyError`
from any channel's matcher aborts the whole comprehension. -/
def matchFlags : List MChannel → Nat → Ctx → Except String (List Bool)
  | [], _, _ => Except.ok []
  | ch :: rest, dexno, testvars =>
    match spawnMatchRules false ch dexno testvars false with
    | Except.error e => Except.error e
    | Except.ok b =>
      match matchFlags rest dexno testvars with
      | Except.error e => Except.error e
      | Except.ok bs => Except.ok (b :: bs)

/-- The union of the matched channels' senders, in channel order
(`itertools.chain.from_iterable(c.senders for c in channels)`). -/
def matchedSenders (chans : List MChannel) (flags : List Bool) :
    List SendResult :=
  (chans.zip flags).foldr
    (fun p acc => if p.2 then p.1.senders ++ acc else acc) []

/-- Observable outcome of one `SpawnNotifier.notify` call. -/
structure NotifyOutcome where
  resets : List Bool
  handledAfter : List Nat
  sendsAttempted : Nat
  result : Except String Bool

/-- Translation of the `SpawnNotifier.notify` control flow:

1. `if encounter_id in self._handled: return False` — nothing sent;
2. `with self._handled.temp_add(encounter_id) as handling`;
3. match channels (a matcher `KeyError` escapes; the `with` block then
   discards the id and the coroutine wrapper suppresses the exception);
4. `if not channels: return False`;
5. `for channel in channels: channel.cooldown.reset()` — before any send;
6. `count = await _multi_send(senders, ...)`;
7. `if count: handling.keep(...)`; `return bool(count)`.

`resets` records, per channel, whether `channel.cooldown.reset()` ran.
Message-variable assembly and attachment creation (steps between matching
and sending that do not touch cooldowns, senders or the handled set) are
modelled as non-failing. -/
def spawnNotify (handled : List Nat) (chans : List MChannel) (dexno : Nat)
    (testvars : Ctx) (eid : Nat) : NotifyOutcome :=
  if eid ∈ handled then
    ⟨chans.map (fun _ => false), handled, 0, Except.ok false⟩
  else
    match tempAddEnter handled eid with
    | Except.error e => ⟨chans.map (fun _ => false), handled, 0, Except.error e⟩
    | Except.ok h1 =>
      match matchFlags chans dexno testvars with
      | Except.error e =>
        ⟨chans.map (fun _ => false), tempAddExit h1 eid false, 0, Except.error e⟩
      | Except.ok flags =>
        if flags.all (fun f => !f) then
          ⟨chans.map (fun _ => false), tempAddExit h1 eid false, 0,
            Except.ok false⟩
        else
          match multiSend (matchedSenders chans flags) with
          | Except.error e =>
            ⟨flags, tempAddExit h1 eid false,
              (matchedSenders chans flags).length, Except.error e⟩
          | Except.ok count =>
            ⟨flags, tempAddExit h1 eid (decide (0 < count)),
              (matchedSenders chans flags).length,
              Except.ok (decide (0 < count))⟩

/-! ## Event formatting (`_EventFormatter` / `Event.format`)

`Event.format(template)` runs `_EventFormatter().vformat(template, (), self)`.
`string.Formatter.vformat` parses the template into segments of literal text
plus optional replacement fields; we embed a parsed template.  An `Event` is
a `ChainMap`, whose lookup finds the first layer containing the key; it is
embedded as an association list with first-match lookup. -/

/-- A Python value reachable from an event variable: a number, a string, an
object/dict with named fields, a list, or a `timedelta` (as produced by the
`!d` conversion). -/
inductive PyVal where
  | num : ℚ → PyVal
  | str : String → PyVal
  | obj : List (String × PyVal) → PyVal
  | arr : List PyVal → PyVal
  | dur : ℚ → PyVal

/-- The exceptions that field lookup, conversion and formatting can raise. -/
inductive PyExc where
  | keyError : PyExc
  | indexError : PyExc
  | attrError : PyExc
  | typeError : PyExc
  | valueError : PyExc
  deriving DecidableEq

/-- One step of a parsed `field_name` path: `.name` attribute access, or
`[...]` item access with a string or an integer key. -/
inductive PathStep where
  | attr : String → PathStep
  | skey : String → PathStep
  | nkey : Nat → PathStep

/-- The first component of a `field_name`: a variable name (looked up in the
event mapping by `get_value`) or a positional index (which indexes `args`;
`Event.format` always passes empty `args`, so it raises `IndexError`). -/
inductive FieldHead where
  | name : String → FieldHead
  | pos : Nat → FieldHead

/-- A parsed replacement field: head, accessor path, optional conversion
character, and format spec. -/
structure FieldRef where
  head : FieldHead
  path : List PathStep
  conv : Option Char
  spec : String

/-- A parsed template segment, as produced by `string.Formatter.parse`:
a literal run followed by an optional replacement field. -/
structure Segment where
  literal : String
  field : Option FieldRef

/-- Python `getattr(v, name)`: a missing attribute raises `AttributeError`
on any value. -/
def pyGetAttr (v : PyVal) (name : String) : Except PyExc PyVal :=
  match v with
  | PyVal.obj fields =>
    match fields.lookup name with
    | some w => Except.ok w
    | none => Except.error PyExc.attrError
  | _ => Except.error PyExc.attrError

/-- One `__getitem__` / `getattr` step of `string.Formatter.get_field`:
dict item access raises `KeyError` for a missing key (of either type); list
and string indexing yield the element / one-character string when in range
and raise `IndexError` when out of range, but `TypeError` for a string key;
subscripting a number or timedelta raises `TypeError`. -/
def pyGetStep (v : PyVal) : PathStep → Except PyExc PyVal
  | PathStep.attr n => pyGetAttr v n
  | PathStep.skey s =>
    match v with
    | PyVal.obj fields =>
      match fields.lookup s with
      | some w => Except.ok w
      | none => Except.error PyExc.keyError
    | _ => Except.error PyExc.typeError
  | PathStep.nkey n =>
    match v with
    | PyVal.arr l =>
      match l.get? n with
      | some w => Except.ok w
      | none => Except.error PyExc.indexError
    | PyVal.str s =>
      match s.toList.get? n with
      | some c => Except.ok (PyVal.str (String.mk [c]))
      | none => Except.error PyExc.indexError
    | PyVal.obj _ => Except.error PyExc.keyError
    | _ => Except.error PyExc.typeError

/-- `string.Formatter.get_value`: a named key is looked up in the event
mapping (raising `KeyError` when missing); a positional key indexes the
empty `args` tuple, raising `IndexError`. -/
def getValue (ev : List (String × PyVal)) : FieldHead → Except PyExc PyVal
  | FieldHead.name s =>
    match ev.lookup s with
    | some v => Except.ok v
    | none => Except.error PyExc.keyError
  | FieldHead.pos _ => Except.error PyExc.indexError

/-- The accessor-path loop of `string.Formatter.get_field`. -/
def applyPath (v : PyVal) : List PathStep → Except PyExc PyVal
  | [] => Except.ok v
  | s :: rest =>
    match pyGetStep v s with
    | Except.error e => Except.error e
    | Except.ok w => applyPath w rest

/-- The raw `string.Formatter.get_field`: resolve the head with `get_value`,
then apply each attribute/item step. -/
def getFieldRaw (ev : List (String × PyVal)) (f : FieldRef) :
    Except PyExc PyVal :=
  match getValue ev f.head with
  | Except.error e => Except.error e
  | Except.ok v => applyPath v f.path

/-- A resolved field value, possibly the `_MISSING` sentinel. -/
inductive FVal where
  | val : PyVal → FVal
  | missing : FVal

/-- `_EventFormatter.get_field`: wraps the raw lookup in
`try ... except (KeyError, IndexError, AttributeError)`, substituting the
`_MISSING` sentinel for exactly those three exceptions. -/
def eventGetField (ev : List (String × PyVal)) (f : FieldRef) :
    Except PyExc FVal :=
  match getFieldRaw ev f with
  | Except.ok v => Except.ok (FVal.val v)
  | Except.error PyExc.keyError => Except.ok FVal.missing
  | Except.error PyExc.indexError => Except.ok FVal.missing
  | Except.error PyExc.attrError => Except.ok FVal.missing
  | Except.error e => Except.error e

/-- Python's `int()` truncation toward zero, used by `_format_timedelta` on
`delta.total_seconds()`. -/
def pyIntTrunc (q : ℚ) : Int :=
  if 0 ≤ q then q.floor else -((-q).floor)

/-- Translation of `_EventFormatter._format_timedelta`: repeated
`divmod(int(seconds), div)` over days/hours/minutes/seconds, keeping only
the nonzero parts, with `"0s"` when every part is zero (`divmod` is floor
division, `Int.fdiv`/`Int.fmod`). -/
def formatTimedelta (q : ℚ) : String :=
  let s0 := pyIntTrunc q
  let dd := Int.fdiv s0 86400
  let r1 := Int.fmod s0 86400
  let hh := Int.fdiv r1 3600
  let r2 := Int.fmod r1 3600
  let mm := Int.fdiv r2 60
  let ss := Int.fmod r2 60
  let parts :=
    (if dd ≠ 0 then toString dd ++ "d" else "") ++
    (if hh ≠ 0 then toString hh ++ "h" else "") ++
    (if mm ≠ 0 then toString mm ++ "m" else "") ++
    (if ss ≠ 0 then toString ss ++ "s" else "")
  if parts = "" then "0s" else parts

/-- Python's `str(value)` on the value universe (default renderings for
containers simplified to fixed tags). -/
def pyStr : PyVal → String
  | PyVal.num q => toString q
  | PyVal.str s => s
  | PyVal.obj _ => "<dict>"
  | PyVal.arr _ => "<list>"
  | PyVal.dur q => formatTimedelta q

/-- Python's `repr(value)` (and `ascii(value)`) on the value universe,
simplified: strings gain quotes, the rest render as `str` does. -/
def pyRepr : PyVal → String
  | PyVal.str s => "'" ++ s ++ "'"
  | v => pyStr v

/-- The final characters of a format spec that Python's `format` accepts as
a presentation type for numbers. -/
def numSpecChars : List Char := ['d', 'f', 'e', 'g', 'n', '%']

/-- Python's builtin `format(value, spec)` on the value universe,
simplified but keeping its error surface: an empty spec renders the default
string form; a non-empty spec renders only when its final presentation-type
character is compatible with the value's kind, raising `ValueError` for an
incompatible code on a number or string (e.g. `\x7bname:d\x7d` on a string) and
`TypeError` for any non-empty spec on a dict or list (whose
`object.__format__` rejects format specs). -/
def formatScalar (v : PyVal) (spec : String) : Except PyExc String :=
  if spec = "" then Except.ok (pyStr v)
  else
    match v with
    | PyVal.num q =>
      if spec.back ∈ numSpecChars then Except.ok (toString q)
      else Except.error PyExc.valueError
    | PyVal.str s =>
      if spec.back = 's' then Except.ok s
      else Except.error PyExc.valueError
    | _ => Except.error PyExc.typeError

/-- Translation of `_EventFormatter.convert_field`: the `_MISSING` sentinel
is returned unchanged first (`if value is self._MISSING: return value`);
`!d` on a number becomes a timedelta; everything else falls through to
`string.Formatter.convert_field`, which applies `str`/`repr`/`ascii` for
`!s`/`!r`/`!a` and raises `ValueError` for any other conversion specifier —
including `!d` on a non-numeric value. -/
def convertField (v : FVal) (conv : Option Char) : Except PyExc FVal :=
  match v with
  | FVal.missing => Except.ok FVal.missing
  | FVal.val w =>
    match conv with
    | none => Except.ok (FVal.val w)
    | some c =>
      if c = 'd' then
        match w with
        | PyVal.num q => Except.ok (FVal.val (PyVal.dur q))
        | _ => Except.error PyExc.valueError
      else if c = 's' then Except.ok (FVal.val (PyVal.str (pyStr w)))
      else if c = 'r' then Except.ok (FVal.val (PyVal.str (pyRepr w)))
      else if c = 'a' then Except.ok (FVal.val (PyVal.str (pyRepr w)))
      else Except.error PyExc.valueError

/-- Translation of `_EventFormatter.format_field`: a timedelta renders via
`_format_timedelta` (which ignores the spec); the `_MISSING` sentinel is not
a timedelta or datetime, so it reaches `format(value, spec)`, where
`Missing.__format__` returns `"?"` whatever the spec says; every other value
renders through `format(value, spec)`, which can raise. -/
def formatField (v : FVal) (spec : String) : Except PyExc String :=
  match v with
  | FVal.missing => Except.ok "?"
  | FVal.val (PyVal.dur q) => Except.ok (formatTimedelta q)
  | FVal.val w => formatScalar w spec

/-- One segment of `string.Formatter._vformat` using
`_EventFormatter.get_field`: emit the literal text, then — if the segment
has a replacement field — the converted, formatted field value; an
exception from conversion or formatting of a present value propagates. -/
def renderSegment (ev : List (String × PyVal)) (seg : Segment) :
    Except PyExc String :=
  match seg.field with
  | none => Except.ok seg.literal
  | some f =>
    match eventGetField ev f with
    | Except.error e => Except.error e
    | Except.ok v =>
      match convertField v f.conv with
      | Except.error e => Except.error e
      | Except.ok v2 =>
        match formatField v2 f.spec with
        | Except.error e => Except.error e
        | Except.ok txt => Except.ok (seg.literal ++ txt)

/-- `Event.format(template)` on a parsed template: the concatenation of the
rendered segments; an uncaught exception from any segment propagates. -/
def eventFormat (ev : List (String × PyVal)) : List Segment → Except PyExc String
  | [] => Except.ok ""
  | seg :: rest =>
    match renderSegment ev seg with
    | Except.error e => Except.error e
    | Except.ok s =>
      match eventFormat ev rest with
      | Except.error e => Except.error e
      | Except.ok t => Except.ok (s ++ t)

/-- The exception classes intercepted by `_EventFormatter.get_field`
(`except (KeyError, IndexError, AttributeError)`). -/
def caught : PyExc → Bool
  | PyExc.keyError => true
  | PyExc.indexError => true
  | PyExc.attrError => true
  | _ => false

/-! ## Theorems -/

/-- Folding the dict-builder over pairs whose keys never match `k` leaves the
accumulator unchanged. -/
theorem pyDictFold_of_not_mem (pairs : List (Nat × ℚ)) (k : Nat)
    (acc : Option ℚ) (h : k ∉ pairs.map Prod.fst) :
    pairs.foldl (fun acc p => if p.1 = k then some p.2 else acc) acc = acc := by
  induction pairs generalizing acc with
  | nil => rfl
  | cons hd tl ih =>
    simp only [List.map_cons, List.mem_cons] at h
    push_neg at h
    rw [List.foldl_cons, if_neg (fun hh => h.1 hh.symm)]
    exact ih acc h.2

/-- Dict lookup on a pair list with no duplicate keys finds the unique
binding. -/
theorem pyDictGet_mem_of_nodup (pairs : List (Nat × ℚ)) (k : Nat) (v : ℚ)
    (hnd : (pairs.map Prod.fst).Nodup) (hmem : (k, v) ∈ pairs) :
    pyDictGet pairs k = some v := by
  induction pairs with
  | nil => cases hmem
  | cons hd tl ih =>
    simp only [List.map_cons, List.nodup_cons] at hnd
    rcases List.mem_cons.mp hmem with heq | htl
    · subst heq
      unfold pyDictGet
      rw [List.foldl_cons, if_pos rfl]
      exact pyDictFold_of_not_mem tl k (some v) hnd.1
    · have hne : hd.1 ≠ k := by
        intro hh
        exact hnd.1 (hh ▸ List.mem_map.mpr ⟨(k, v), htl, rfl⟩)
      unfold pyDictGet
      rw [List.foldl_cons, if_neg hne]
      exact ih hnd.2 htl

/-- C6 counterexample data.  With `duration = 0` and `busy ≠ idle`,
`get()` at elapsed 0 is `idle`, not `busy`; and with a negative `duration`
(constructible, never validated) the value increases with elapsed time and
ignores the `elapsed ≥ duration` clamp. -/
theorem cooldownGet_c6_counterexample :
    cooldownGet 1 0 0 0 = 0 ∧ cooldownGet 1 0 0 0 ≠ 1 ∧
    cooldownGet 2 0 (-10) 0 = 2 ∧ cooldownGet 2 0 (-10) 10 = 4 ∧
    ¬ cooldownGet 2 0 (-10) 10 ≤ cooldownGet 2 0 (-10) 0 := by
  norm_num [cooldownGet]

/-- C6 (amended): for a nonnegative `duration`, `_Cooldown.get()` returns
`idle` when `duration = 0` or `elapsed ≥ duration`, otherwise
`busy - (busy - idle) * elapsed / duration`; at `elapsed = 0` it equals
`busy` whenever `duration ≠ 0`; and when `busy ≥ idle` the value is
monotonically non-increasing in the elapsed time. -/
theorem cooldownGet_spec (busy idle duration : ℚ) (hd : 0 ≤ duration) :
    (∀ e, duration = 0 ∨ duration ≤ e → cooldownGet busy idle duration e = idle) ∧
    (∀ e, duration ≠ 0 → e < duration →
      cooldownGet busy idle duration e = busy - (busy - idle) * (e / duration)) ∧
    (duration ≠ 0 → cooldownGet busy idle duration 0 = busy) ∧
    (idle ≤ busy → ∀ e1 e2, e1 ≤ e2 →
      cooldownGet busy idle duration e2 ≤ cooldownGet busy idle duration e1) := by
  refine ⟨?_, ?_, ?_, ?_⟩
  · intro e h
    unfold cooldownGet
    rcases h with h | h
    · simp [h]
    · by_cases hdz : duration = 0
      · simp [hdz]
      · have hdpos : 0 < duration := lt_of_le_of_ne hd (Ne.symm hdz)
        have h1 : 1 ≤ e / duration := (le_div_iff₀ hdpos).mpr (by linarith)
        by_cases hdiff : busy - idle = 0
        · simp [hdiff]
        · simp [hdiff, hdz, h1]
  · intro e hdz he
    have hdpos : 0 < duration := lt_of_le_of_ne hd (Ne.symm hdz)
    have h1 : ¬ 1 ≤ e / duration := by
      rw [not_le, div_lt_one hdpos]; exact he
    unfold cooldownGet
    by_cases hdiff : busy - idle = 0
    · have : busy = idle := by linarith
      simp [hdiff, this]
    · simp [hdiff, hdz, h1]
  · intro hdz
    have hdpos : 0 < duration := lt_of_le_of_ne hd (Ne.symm hdz)
    have h1 : ¬ 1 ≤ (0 : ℚ) / duration := by
      rw [zero_div]; norm_num
    unfold cooldownGet
    by_cases hdiff : busy - idle = 0
    · have : busy = idle := by linarith
      simp [hdiff, this]
    · simp [hdiff, hdz, h1]
  · intro hbi e1 e2 h12
    unfold cooldownGet
    by_cases hdiff : busy - idle = 0
    · simp [hdiff]
    · by_cases hdz : duration = 0
      · simp [hdz]
      · have hdpos : 0 < duration := lt_of_le_of_ne hd (Ne.symm hdz)
        have hdiffpos : 0 < busy - idle := lt_of_le_of_ne (by linarith) (Ne.symm hdiff)
        have hdivle : e1 / duration ≤ e2 / duration :=
          (div_le_div_iff_of_pos_right hdpos).mpr h12
        by_cases h1 : 1 ≤ e1 / duration
        · have h2 : 1 ≤ e2 / duration := le_trans h1 hdivle
          simp [hdiff, hdz, h1, h2]
        · by_cases h2 : 1 ≤ e2 / duration
          · simp [hdiff, hdz, h1, h2]
            nlinarith [not_le.mp h1, hdiffpos]
          · simp [hdiff, hdz, h1, h2]
            nlinarith [mul_le_mul_of_nonneg_left hdivle hdiffpos.le]

/-- Witness for `cooldownGet_spec` at `busy = 3`, `idle = 1`, `duration = 10`. -/
theorem cooldownGet_spec_witness :
    (0 : ℚ) ≤ 10 ∧ cooldownGet 3 1 10 10 = 1 ∧
    cooldownGet 3 1 10 4 = 3 - (3 - 1) * (4 / 10) ∧
    cooldownGet 3 1 10 0 = 3 ∧
    cooldownGet 3 1 10 10 ≤ cooldownGet 3 1 10 0 :=
  ⟨by norm_num,
   (cooldownGet_spec 3 1 10 (by norm_num)).1 10 (Or.inr le_rfl),
   (cooldownGet_spec 3 1 10 (by norm_num)).2.1 4 (by norm_num) (by norm_num),
   (cooldownGet_spec 3 1 10 (by norm_num)).2.2.1 (by norm_num),
   (cooldownGet_spec 3 1 10 (by norm_num)).2.2.2 (by norm_num) 0 10 (by norm_num)⟩

/-- C9: a freshly constructed `_Cooldown` with `duration > 0` starts half
elapsed — `__init__` sets the last-reset timestamp `duration / 2` in the
past, so `get()` right after construction returns the midpoint
`(busy + idle) / 2`, which differs from `busy` whenever `busy ≠ idle`. -/
theorem cooldown_initial_midpoint (busy idle duration : ℚ) (hd : 0 < duration) :
    cooldownGet busy idle duration (cooldownInitialElapsed duration) = (busy + idle) / 2 ∧
    (busy ≠ idle →
      cooldownGet busy idle duration (cooldownInitialElapsed duration) ≠ busy) := by
  have hdz : duration ≠ 0 := ne_of_gt hd
  have hhalf : cooldownInitialElapsed duration / duration = 1 / 2 := by
    unfold cooldownInitialElapsed
    field_simp
    ring
  have hmain : cooldownGet busy idle duration (cooldownInitialElapsed duration)
      = (busy + idle) / 2 := by
    unfold cooldownGet
    rw [hhalf]
    by_cases hdiff : busy - idle = 0
    · have hbe : busy = idle := by linarith
      rw [if_pos (Or.inl hdiff), hbe]
      ring
    · have h1 : ¬ (1 : ℚ) ≤ 1 / 2 := by norm_num
      rw [if_neg (not_or.mpr ⟨hdiff, hdz⟩), if_neg h1]
      ring
  refine ⟨hmain, fun hne => ?_⟩
  rw [hmain]
  intro hcontra
  apply hne
  have : busy + idle = 2 * busy := by
    have := hcontra
    field_simp at this
    linarith
  linarith

/-- Witness for `cooldown_initial_midpoint` at `busy = 4`, `idle = 2`,
`duration = 10`. -/
theorem cooldown_initial_midpoint_witness :
    (0 : ℚ) < 10 ∧
    cooldownGet 4 2 10 (cooldownInitialElapsed 10) = (4 + 2) / 2 :=
  ⟨by norm_num, (cooldown_initial_midpoint 4 2 10 (by norm_num)).1⟩

/-- C1 counterexample: with the rule list `[False, True]` for species 7,
both matchers return the first literal (`False`) immediately — the literal
`False` rule is not skipped, and the later literal `True` rule is never
consulted, so matching does not return true. -/
theorem literal_false_not_skipped_counterexample :
    spawnMatchRules false
      ⟨[], ⟨[(7, [MRule.lit false, MRule.lit true])], []⟩, 0, []⟩
      7 (fun _ => none) false = Except.ok false ∧
    (Except.ok false : Except String Bool) ≠ Except.ok true ∧
    matchRaidRules ⟨[(7, [MRule.lit false, MRule.lit true])], []⟩
      (some 7) (fun _ => none) = false := by
  refine ⟨rfl, by simp, rfl⟩

/-- C1 (amended): in both `SpawnNotifier._match_rules` and
`FortNotifier._match_raid_rules`, a literal boolean rule short-circuits the
rule loop with its own value: a literal `True` makes matching return true
immediately, and a literal `False` makes matching return false immediately,
without consulting any later rule. -/
theorem literal_rule_short_circuits :
    (∀ (run : Test → Except String Bool) (b : Bool) (rest : List MRule),
      matchRuleList run (MRule.lit b :: rest) = b) ∧
    (∀ (enc : Bool) (ch : MChannel) (dexno : Nat) (tv : Ctx) (opt : Bool)
      (b : Bool) (rest : List MRule),
      selectRules ch.spawnrules dexno = MRule.lit b :: rest →
      ch.spawnlaw = [] →
      spawnMatchRules enc ch dexno tv opt = Except.ok b) ∧
    (∀ (rm : RuleMap) (dOpt : Option Nat) (tv : Ctx) (b : Bool)
      (rest : List MRule),
      raidSelect rm dOpt = MRule.lit b :: rest →
      matchRaidRules rm dOpt tv = b) := by
  refine ⟨fun run b rest => rfl, ?_, ?_⟩
  · intro enc ch dexno tv opt b rest hsel hlaw
    unfold spawnMatchRules
    rw [hlaw, hsel]
    rfl
  · intro rm dOpt tv b rest hsel
    unfold matchRaidRules
    rw [hsel]
    rfl

/-- Witness for `literal_rule_short_circuits`: a channel whose only rule for
species 25 is the literal `True` matches, and a raid rule map whose fallback
starts with the literal `False` does not. -/
theorem literal_rule_short_circuits_witness :
    selectRules ⟨[(25, [MRule.lit true])], []⟩ 25 = [MRule.lit true] ∧
    spawnMatchRules false ⟨[], ⟨[(25, [MRule.lit true])], []⟩, 0, []⟩
      25 (fun _ => none) false = Except.ok true ∧
    raidSelect ⟨[], [MRule.lit false]⟩ none = [MRule.lit false] ∧
    matchRaidRules ⟨[], [MRule.lit false]⟩ none (fun _ => none) = false :=
  ⟨rfl,
   literal_rule_short_circuits.2.1 false
     ⟨[], ⟨[(25, [MRule.lit true])], []⟩, 0, []⟩ 25 (fun _ => none) false
     true [] rfl rfl,
   rfl,
   literal_rule_short_circuits.2.2 ⟨[], [MRule.lit false]⟩ none
     (fun _ => none) false [] rfl⟩

/-- C2 counterexample: a channel whose spawn law contains the single test
`iv > 50`, evaluated strictly on a context with no `iv` variable, makes
`_match_rules` raise `KeyError('iv')` — the result is the escaping error,
not a `False` return. -/
theorem strict_law_keyerror_counterexample :
    spawnMatchRules false
      ⟨[getterTest "iv" (fun v => decide (50 < v))], ⟨[], []⟩, 0, []⟩
      1 (fun _ => none) false = Except.error "iv" ∧
    (Except.error "iv" : Except String Bool) ≠ Except.ok false := by
  refine ⟨rfl, by simp⟩

/-- C2 (amended): under strict (non-optimistic) evaluation, a `KeyError`
raised while evaluating the spawn law escapes `_match_rules` unhandled (it
is only suppressed higher up, by the notify coroutine's exception-logging
wrapper); missing variables inside per-species rule tests, by contrast, are
handled locally, so with an empty law `_match_rules` always returns a
boolean. -/
theorem strict_law_keyerror_escapes :
    (∀ (enc : Bool) (ch : MChannel) (dexno : Nat) (tv : Ctx) (e : String),
      evalTests (fun t => t (chainCooldown tv ch.cooldownVal)) ch.spawnlaw =
        Except.error e →
      spawnMatchRules enc ch dexno tv false = Except.error e) ∧
    (∀ (enc : Bool) (ch : MChannel) (dexno : Nat) (tv : Ctx),
      ch.spawnlaw = [] →
      ∃ b, spawnMatchRules enc ch dexno tv false = Except.ok b) := by
  constructor
  · intro enc ch dexno tv e h
    unfold spawnMatchRules
    simp only [Bool.false_eq_true, if_false]
    rw [h]
  · intro enc ch dexno tv hlaw
    unfold spawnMatchRules
    rw [hlaw]
    exact ⟨_, rfl⟩

/-- Witness for `strict_law_keyerror_escapes` on a law consisting of the
test `iv > 50` and an empty context. -/
theorem strict_law_keyerror_escapes_witness :
    evalTests (fun t => t (chainCooldown (fun _ => none) 0))
      [getterTest "iv" (fun v => decide (50 < v))] = Except.error "iv" ∧
    spawnMatchRules false
      ⟨[getterTest "iv" (fun v => decide (50 < v))], ⟨[], []⟩, 3, []⟩
      1 (fun _ => none) false = Except.error "iv" ∧
    (⟨[], ⟨[], []⟩, 0, []⟩ : MChannel).spawnlaw = [] ∧
    ∃ b, spawnMatchRules false (⟨[], ⟨[], []⟩, 0, []⟩ : MChannel)
      1 (fun _ => none) false = Except.ok b :=
  ⟨rfl,
   strict_law_keyerror_escapes.1 false
     ⟨[getterTest "iv" (fun v => decide (50 < v))], ⟨[], []⟩, 3, []⟩
     1 (fun _ => none) "iv" rfl,
   rfl,
   strict_law_keyerror_escapes.2 false (⟨[], ⟨[], []⟩, 0, []⟩ : MChannel)
     1 (fun _ => none) rfl⟩

/-- C4: under optimistic evaluation (`optimism=True`) a test signalling a
missing variable evaluates to false when `conf.ENCOUNTER` is unset;
otherwise, when the missing variable is `score`, the test is retried with
the theoretical maximum score `(rareness + 1) / 2` and then the theoretical
minimum score `rareness / 2`, passing iff at least one retry passes; and for
any other missing variable it evaluates to true. -/
theorem optimistic_missing_variable_spec (t : Test) (ctx : Ctx) (name : String)
    (h : t ctx = Except.error name) :
    (runTestOpt false ctx t = Except.ok false) ∧
    (∀ (r : ℚ) (b1 b2 : Bool),
      name = "score" → ctx "rareness" = some r →
      t (newChild ctx "score" ((r + 1) / 2)) = Except.ok b1 →
      t (newChild ctx "score" (r / 2)) = Except.ok b2 →
      runTestOpt true ctx t = Except.ok (b1 || b2)) ∧
    (name ≠ "score" → runTestOpt true ctx t = Except.ok true) := by
  refine ⟨?_, ?_, ?_⟩
  · unfold runTestOpt
    rw [h]
    rfl
  · intro r b1 b2 hname hr h1 h2
    subst hname
    unfold runTestOpt
    rw [h, hr]
    simp only [Bool.not_true, Bool.false_eq_true, if_false, if_pos rfl]
    rw [h1]
    cases b1
    · rw [h2]
      rfl
    · rfl
  · intro hname
    unfold runTestOpt
    rw [h]
    simp [hname]

/-- Witness for `optimistic_missing_variable_spec`: the test `score ≥ 1` on
a context holding only `rareness = 1`; the maximum-score retry (score 1)
passes and the minimum-score retry (score 1/2) fails, so the optimistic
result is true. -/
theorem optimistic_missing_variable_witness :
    getterTest "score" (fun v => decide (1 ≤ v))
      (fun k => if k = "rareness" then some 1 else none) =
      Except.error "score" ∧
    runTestOpt true (fun k => if k = "rareness" then some 1 else none)
      (getterTest "score" (fun v => decide (1 ≤ v))) =
      Except.ok (true || false) :=
  ⟨rfl,
   (optimistic_missing_variable_spec
     (getterTest "score" (fun v => decide (1 ≤ v)))
     (fun k => if k = "rareness" then some 1 else none)
     "score" rfl).2.1 1 true false rfl rfl
     (by simp [getterTest, newChild])
     (by simp [getterTest, newChild]; norm_num)⟩

/-- C5: for every duplicate-free ranking and no override map, the rareness
dict maps the entry at index `i` of the (possibly truncated) ranking to
exactly `1 - (i - origin) / max(count - origin, 1)`; these values are
non-increasing in the index, entries before the origin offset get values
strictly greater than 1, and when `origin = 0` the first (rarest) entry gets
exactly 1. -/
theorem make_rareness_dict_spec (notifyRanking alwaysNotify : Nat)
    (legacyBugs : Bool) (alwaysIds : Finset Nat) (ranking : List Nat)
    (hnd : ranking.Nodup) :
    (∀ i (hi : i < (rarenessRanking notifyRanking alwaysNotify ranking).length),
      makeRarenessDict notifyRanking alwaysNotify legacyBugs alwaysIds []
        ranking ((rarenessRanking notifyRanking alwaysNotify ranking).get ⟨i, hi⟩)
      = some (rarenessValue
          (rarenessOrigin notifyRanking alwaysNotify legacyBugs alwaysIds ranking)
          (rarenessSteps notifyRanking alwaysNotify legacyBugs alwaysIds ranking)
          i)) ∧
    (∀ steps i j, 0 < steps → i ≤ j →
      rarenessValue
        (rarenessOrigin notifyRanking alwaysNotify legacyBugs alwaysIds ranking)
        steps j ≤
      rarenessValue
        (rarenessOrigin notifyRanking alwaysNotify legacyBugs alwaysIds ranking)
        steps i) ∧
    (∀ steps i, 0 < steps →
      i < rarenessOrigin notifyRanking alwaysNotify legacyBugs alwaysIds ranking →
      1 < rarenessValue
        (rarenessOrigin notifyRanking alwaysNotify legacyBugs alwaysIds ranking)
        steps i) ∧
    (rarenessOrigin notifyRanking alwaysNotify legacyBugs alwaysIds ranking = 0 →
      ∀ h0 : 0 < (rarenessRanking notifyRanking alwaysNotify ranking).length,
      makeRarenessDict notifyRanking alwaysNotify legacyBugs alwaysIds []
        ranking ((rarenessRanking notifyRanking alwaysNotify ranking).get ⟨0, h0⟩)
      = some 1) := by
  have hrknd : (rarenessRanking notifyRanking alwaysNotify ranking).Nodup := by
    unfold rarenessRanking
    by_cases h : notifyRanking ≠ 0
    · rw [if_pos h]
      exact List.Nodup.sublist (List.take_sublist _ _) hnd
    · rw [if_neg h]
      exact hnd
  have hvalue : ∀ i (hi : i < (rarenessRanking notifyRanking alwaysNotify ranking).length),
      makeRarenessDict notifyRanking alwaysNotify legacyBugs alwaysIds []
        ranking ((rarenessRanking notifyRanking alwaysNotify ranking).get ⟨i, hi⟩)
      = some (rarenessValue
          (rarenessOrigin notifyRanking alwaysNotify legacyBugs alwaysIds ranking)
          (rarenessSteps notifyRanking alwaysNotify legacyBugs alwaysIds ranking)
          i) := by
    intro i hi
    set rk := rarenessRanking notifyRanking alwaysNotify ranking with hrk
    unfold makeRarenessDict
    rw [List.append_nil]
    apply pyDictGet_mem_of_nodup
    · rw [List.map_map]
      have : (Prod.fst ∘ fun p : Nat × Nat => (p.2, rarenessValue
          (rarenessOrigin notifyRanking alwaysNotify legacyBugs alwaysIds ranking)
          (rarenessSteps notifyRanking alwaysNotify legacyBugs alwaysIds ranking)
          p.1)) = Prod.snd := rfl
      rw [this, List.enum_map_snd]
      exact hrknd
    · apply List.mem_map.mpr
      refine ⟨(i, rk.get ⟨i, hi⟩), ?_, rfl⟩
      apply List.mk_mem_enum_iff_getElem?.mpr
      simp [List.getElem?_eq_getElem hi]
  refine ⟨hvalue, ?_, ?_, ?_⟩
  · intro steps i j hs hij
    unfold rarenessValue
    have hsq : (0 : ℚ) < (steps : ℚ) := by exact_mod_cast hs
    have hnum : ((i : ℚ) -
        (rarenessOrigin notifyRanking alwaysNotify legacyBugs alwaysIds ranking : ℚ))
        ≤ ((j : ℚ) -
        (rarenessOrigin notifyRanking alwaysNotify legacyBugs alwaysIds ranking : ℚ)) :=
      sub_le_sub_right (by exact_mod_cast hij) _
    have := (div_le_div_iff_of_pos_right hsq).mpr hnum
    linarith
  · intro steps i hs hio
    unfold rarenessValue
    have hsq : (0 : ℚ) < (steps : ℚ) := by exact_mod_cast hs
    have hnum : ((i : ℚ) -
        (rarenessOrigin notifyRanking alwaysNotify legacyBugs alwaysIds ranking : ℚ))
        < 0 := by
      have : (i : ℚ) <
          (rarenessOrigin notifyRanking alwaysNotify legacyBugs alwaysIds ranking : ℚ) := by
        exact_mod_cast hio
      linarith
    have := div_neg_of_neg_of_pos hnum hsq
    linarith
  · intro ho h0
    rw [hvalue 0 h0]
    unfold rarenessValue
    rw [ho]
    norm_num

/-- Witness for `make_rareness_dict_spec` on the ranking `[10, 20, 30]` with
no truncation, no always-notify head-set and no override: entry 20 (index 1)
gets rareness `1 - 1/3` and entry 10 (index 0) gets exactly 1. -/
theorem make_rareness_dict_spec_witness :
    List.Nodup [10, 20, 30] ∧
    makeRarenessDict 0 0 false ∅ [] [10, 20, 30]
      ((rarenessRanking 0 0 [10, 20, 30]).get ⟨1, by decide⟩)
      = some (rarenessValue (rarenessOrigin 0 0 false ∅ [10, 20, 30])
          (rarenessSteps 0 0 false ∅ [10, 20, 30]) 1) ∧
    makeRarenessDict 0 0 false ∅ [] [10, 20, 30]
      ((rarenessRanking 0 0 [10, 20, 30]).get ⟨0, by decide⟩)
      = some 1 :=
  ⟨by decide,
   (make_rareness_dict_spec 0 0 false ∅ [10, 20, 30] (by decide)).1 1 (by decide),
   (make_rareness_dict_spec 0 0 false ∅ [10, 20, 30] (by decide)).2.2.2
     (by decide) (by decide)⟩

/-- C7 counterexample: a sender list `[ok, failing, ok]` where the failing
sender raised `KeyError('x')` (a `KeyError` whose argument is a string, not
a class) makes `_multi_send` itself raise `TypeError` from
`issubclass(result.args[0], Event)` instead of returning 2. -/
theorem multi_send_keyerror_counterexample :
    multiSend [SendResult.ok, SendResult.keyError KEArg.nonCls, SendResult.ok]
      = Except.error "TypeError" ∧
    (Except.error "TypeError" : Except String Nat) ≠ Except.ok 2 :=
  ⟨rfl, by simp⟩

/-- C7 (amended): `_multi_send` issues every sender's `send` (one gathered
result per sender, independent of sibling failures) and returns the number
of senders whose send did not raise, itself raising no exception, provided
no sender failed with a malformed `KeyError` — one whose first argument is
not a class (`TypeError` from the `issubclass` check) or that has no
argument (`IndexError`). -/
theorem multi_send_spec (results : List SendResult)
    (h : ∀ r ∈ results, r ≠ SendResult.keyError KEArg.nonCls ∧
      r ≠ SendResult.keyError KEArg.noArgs) :
    multiSend results = Except.ok (results.countP (fun r => isSendOk r)) := by
  have key : ∀ (rs : List SendResult),
      (∀ r ∈ rs, r ≠ SendResult.keyError KEArg.nonCls ∧
        r ≠ SendResult.keyError KEArg.noArgs) →
      logSendResults rs = Except.ok () := by
    intro rs
    induction rs with
    | nil => intro _; rfl
    | cons r rest ih =>
      intro hall
      have hr := hall r (List.mem_cons_self r rest)
      have hok : logSendResult r = Except.ok () := by
        cases r with
        | ok => rfl
        | otherExc => rfl
        | keyError a =>
          cases a with
          | eventCls => rfl
          | otherCls => rfl
          | nonCls => exact absurd rfl hr.1
          | noArgs => exact absurd rfl hr.2
      unfold logSendResults
      rw [hok]
      exact ih (fun x hx => hall x (List.mem_cons_of_mem r hx))
  unfold multiSend
  rw [key results h]

/-- Witness for `multi_send_spec`: senders `[ok, failing, ok]` with a
generic (non-`KeyError`) failure yield a count of 2 without raising. -/
theorem multi_send_spec_witness :
    (∀ r ∈ [SendResult.ok, SendResult.otherExc, SendResult.ok],
      r ≠ SendResult.keyError KEArg.nonCls ∧
      r ≠ SendResult.keyError KEArg.noArgs) ∧
    multiSend [SendResult.ok, SendResult.otherExc, SendResult.ok] =
      Except.ok 2 :=
  ⟨by decide, by
    have h2 := multi_send_spec [SendResult.ok, SendResult.otherExc, SendResult.ok]
      (by decide)
    have hc : List.countP (fun r => isSendOk r)
        [SendResult.ok, SendResult.otherExc, SendResult.ok] = 2 := rfl
    rw [hc] at h2
    exact h2⟩

/-- C8: while an encounter id is in the handled set, a further notify call
for it is a no-op returning false with no send attempted and no cooldown
reset; and `_TempSet.temp_add(...).__enter__` for an id already in the set
raises `ValueError` instead of adding a second entry, so at most one
handler can hold a given id at a time. -/
theorem dedupe_exclusive :
    (∀ (handled : List Nat) (chans : List MChannel) (dexno : Nat)
      (testvars : Ctx) (eid : Nat), eid ∈ handled →
      spawnNotify handled chans dexno testvars eid =
        ⟨chans.map (fun _ => false), handled, 0, Except.ok false⟩) ∧
    (∀ (items : List Nat) (item : Nat), item ∈ items →
      tempAddEnter items item =
        Except.error ("duplicate item: " ++ toString item)) := by
  constructor
  · intro handled chans dexno testvars eid h
    unfold spawnNotify
    rw [if_pos h]
  · intro items item h
    unfold tempAddEnter
    rw [if_pos h]

/-- Witness for `dedupe_exclusive`: id 5 is retained in the handled set, a
second notify for it is a no-op with zero sends, and re-entering `temp_add`
for it raises. -/
theorem dedupe_exclusive_witness :
    (5 : Nat) ∈ [5] ∧
    spawnNotify [5] [⟨[], ⟨[], [MRule.lit true]⟩, 0, [SendResult.ok]⟩]
      1 (fun _ => none) 5 =
      ⟨[false], [5], 0, Except.ok false⟩ ∧
    tempAddEnter [5] 5 = Except.error ("duplicate item: " ++ toString 5) :=
  ⟨by decide,
   dedupe_exclusive.1 [5] [⟨[], ⟨[], [MRule.lit true]⟩, 0, [SendResult.ok]⟩]
     1 (fun _ => none) 5 (by decide),
   dedupe_exclusive.2 [5] 5 (by decide)⟩

/-- C3 counterexample: one channel whose rule for species 1 is the literal
`True` and whose single sender fails: `notify` resets that channel's
cooldown even though the success count is 0 (and returns false). -/
theorem cooldown_reset_despite_failure_counterexample :
    (spawnNotify []
      [⟨[], ⟨[(1, [MRule.lit true])], []⟩, 0, [SendResult.otherExc]⟩]
      1 (fun _ => none) 5).resets = [true] ∧
    (spawnNotify []
      [⟨[], ⟨[(1, [MRule.lit true])], []⟩, 0, [SendResult.otherExc]⟩]
      1 (fun _ => none) 5).result = Except.ok false := by
  exact ⟨rfl, rfl⟩

/-- The channel-matching pass produces one flag per channel. -/
theorem matchFlags_length (chans : List MChannel) (dexno : Nat) (tv : Ctx)
    (flags : List Bool) (h : matchFlags chans dexno tv = Except.ok flags) :
    flags.length = chans.length := by
  induction chans generalizing flags with
  | nil =>
    unfold matchFlags at h
    injection h with h2
    rw [← h2]
    rfl
  | cons ch rest ih =>
    unfold matchFlags at h
    cases hm : spawnMatchRules false ch dexno tv false with
    | error e => rw [hm] at h; simp at h
    | ok b =>
      rw [hm] at h
      cases hr : matchFlags rest dexno tv with
      | error e => rw [hr] at h; simp at h
      | ok bs =>
        rw [hr] at h
        injection h with h2
        rw [← h2]
        simp [ih bs hr]

/-- When every match flag is false, the all-false reset list coincides with
the flag list. -/
theorem all_false_flags_eq (chans : List MChannel) (flags : List Bool)
    (hlen : flags.length = chans.length)
    (hall : flags.all (fun f => !f) = true) :
    chans.map (fun _ => false) = flags := by
  induction chans generalizing flags with
  | nil =>
    cases flags with
    | nil => rfl
    | cons f fs => simp at hlen
  | cons ch rest ih =>
    cases flags with
    | nil => simp at hlen
    | cons f fs =>
      simp only [List.all_cons, Bool.and_eq_true] at hall
      have hf : f = false := by
        cases f
        · rfl
        · simp at hall
      subst hf
      simp only [List.map_cons, List.length_cons] at *
      rw [ih fs (by omega) hall.2]

/-- C3 (amended): `notify` resets the cooldowns of exactly the matched
channels, at match time — before delivery and regardless of whether any
send succeeds; when the id is already handled, when matching raises, or
when no channel matches, no cooldown is reset, so channels whose rules did
not match never have their cooldown reset. -/
theorem cooldown_reset_at_match_time :
    (∀ (handled : List Nat) (chans : List MChannel) (dexno : Nat)
      (tv : Ctx) (eid : Nat) (flags : List Bool),
      eid ∉ handled → matchFlags chans dexno tv = Except.ok flags →
      (spawnNotify handled chans dexno tv eid).resets = flags) ∧
    (∀ (handled : List Nat) (chans : List MChannel) (dexno : Nat)
      (tv : Ctx) (eid : Nat), eid ∈ handled →
      (spawnNotify handled chans dexno tv eid).resets =
        chans.map (fun _ => false)) ∧
    (∀ (handled : List Nat) (chans : List MChannel) (dexno : Nat)
      (tv : Ctx) (eid : Nat) (e : String),
      eid ∉ handled → matchFlags chans dexno tv = Except.error e →
      (spawnNotify handled chans dexno tv eid).resets =
        chans.map (fun _ => false)) := by
  refine ⟨?_, ?_, ?_⟩
  · intro handled chans dexno tv eid flags hnin hm
    have he : tempAddEnter handled eid = Except.ok (eid :: handled) := by
      unfold tempAddEnter
      rw [if_neg hnin]
    unfold spawnNotify
    rw [if_neg hnin, he, hm]
    dsimp only
    by_cases hall : flags.all (fun f => !f)
    · rw [if_pos hall]
      exact all_false_flags_eq chans flags
        (matchFlags_length chans dexno tv flags hm) hall
    · rw [if_neg hall]
      cases hms : multiSend (matchedSenders chans flags) with
      | error e => rfl
      | ok count => rfl
  · intro handled chans dexno tv eid h
    unfold spawnNotify
    rw [if_pos h]
  · intro handled chans dexno tv eid e hnin hm
    have he : tempAddEnter handled eid = Except.ok (eid :: handled) := by
      unfold tempAddEnter
      rw [if_neg hnin]
    unfold spawnNotify
    rw [if_neg hnin, he, hm]

/-- Witness for `cooldown_reset_at_match_time`: with one matching and one
non-matching channel, exactly the matching channel's cooldown is reset; and
for an already-handled id, no cooldown is reset. -/
theorem cooldown_reset_at_match_time_witness :
    (5 : Nat) ∉ ([] : List Nat) ∧
    matchFlags
      [⟨[], ⟨[(1, [MRule.lit true])], []⟩, 0, [SendResult.ok]⟩,
       ⟨[], ⟨[], []⟩, 0, [SendResult.ok]⟩] 1 (fun _ => none)
      = Except.ok [true, false] ∧
    (spawnNotify []
      [⟨[], ⟨[(1, [MRule.lit true])], []⟩, 0, [SendResult.ok]⟩,
       ⟨[], ⟨[], []⟩, 0, [SendResult.ok]⟩] 1 (fun _ => none) 5).resets
      = [true, false] ∧
    (3 : Nat) ∈ [3] ∧
    (spawnNotify [3]
      [⟨[], ⟨[(1, [MRule.lit true])], []⟩, 0, [SendResult.ok]⟩]
      1 (fun _ => none) 3).resets = [false] :=
  ⟨by decide, rfl,
   cooldown_reset_at_match_time.1 []
     [⟨[], ⟨[(1, [MRule.lit true])], []⟩, 0, [SendResult.ok]⟩,
      ⟨[], ⟨[], []⟩, 0, [SendResult.ok]⟩] 1 (fun _ => none) 5 [true, false]
     (by decide) rfl,
   by decide,
   cooldown_reset_at_match_time.2.1 [3]
     [⟨[], ⟨[(1, [MRule.lit true])], []⟩, 0, [SendResult.ok]⟩]
     1 (fun _ => none) 3 (by decide)⟩

/-- C10: `Event.format` never raises for a missing event variable — a field
whose lookup fails with `KeyError`, `IndexError` or `AttributeError` is
intercepted by `_EventFormatter.get_field`, survives conversion and
formatting untouched (the `_MISSING` sentinel is preserved by
`convert_field` and formats as `"?"` under every conversion and format
spec), and renders as the fallback text `"?"`.  Consequently any exception
escaping `Event.format` is blamed on a segment whose lookup did not fail
with one of those three exceptions (present-value conversion or formatting,
or a `TypeError` lookup), and a template all of whose field lookups fail
with them formats to a string without raising. -/
theorem event_format_missing_fallback :
    (∀ (ev : List (String × PyVal)) (f : FieldRef) (e : PyExc),
      getFieldRaw ev f = Except.error e → caught e = true →
      eventGetField ev f = Except.ok FVal.missing) ∧
    (∀ (ev : List (String × PyVal)) (seg : Segment) (f : FieldRef) (e : PyExc),
      seg.field = some f →
      getFieldRaw ev f = Except.error e → caught e = true →
      renderSegment ev seg = Except.ok (seg.literal ++ "?")) ∧
    (∀ (ev : List (String × PyVal)) (segs : List Segment) (e : PyExc),
      eventFormat ev segs = Except.error e →
      ∃ seg ∈ segs, ∃ f, seg.field = some f ∧
        renderSegment ev seg = Except.error e ∧
        ∀ e', getFieldRaw ev f = Except.error e' → caught e' = false) ∧
    (∀ (ev : List (String × PyVal)) (segs : List Segment),
      (∀ seg ∈ segs, ∀ f, seg.field = some f →
        ∃ e, getFieldRaw ev f = Except.error e ∧ caught e = true) →
      ∃ s, eventFormat ev segs = Except.ok s) := by
  have hget : ∀ (ev : List (String × PyVal)) (f : FieldRef) (e : PyExc),
      getFieldRaw ev f = Except.error e → caught e = true →
      eventGetField ev f = Except.ok FVal.missing := by
    intro ev f e h hc
    unfold eventGetField
    rw [h]
    cases e with
    | keyError => rfl
    | indexError => rfl
    | attrError => rfl
    | typeError => simp [caught] at hc
    | valueError => simp [caught] at hc
  have hseg : ∀ (ev : List (String × PyVal)) (seg : Segment) (f : FieldRef)
      (e : PyExc), seg.field = some f →
      getFieldRaw ev f = Except.error e → caught e = true →
      renderSegment ev seg = Except.ok (seg.literal ++ "?") := by
    intro ev seg f e hf h hc
    unfold renderSegment
    rw [hf]
    dsimp only
    rw [hget ev f e h hc]
    rfl
  have hblame : ∀ (ev : List (String × PyVal)) (segs : List Segment)
      (e : PyExc), eventFormat ev segs = Except.error e →
      ∃ seg ∈ segs, ∃ f, seg.field = some f ∧
        renderSegment ev seg = Except.error e ∧
        ∀ e', getFieldRaw ev f = Except.error e' → caught e' = false := by
    intro ev segs
    induction segs with
    | nil =>
      intro e h
      exact absurd h (by simp [eventFormat])
    | cons seg rest ih =>
      intro e h
      unfold eventFormat at h
      cases hr : renderSegment ev seg with
      | error e1 =>
        rw [hr] at h
        have he : e1 = e := by simpa using h
        subst he
        cases hf : seg.field with
        | none =>
          exfalso
          unfold renderSegment at hr
          rw [hf] at hr
          exact absurd hr (by simp)
        | some f =>
          refine ⟨seg, List.mem_cons_self seg rest, f, hf, hr, ?_⟩
          intro e' hg
          cases hc2 : caught e' with
          | false => rfl
          | true =>
            exfalso
            have hok2 := hseg ev seg f e' hf hg hc2
            rw [hok2] at hr
            exact absurd hr (by simp)
      | ok s1 =>
        rw [hr] at h
        cases hrest : eventFormat ev rest with
        | error e2 =>
          rw [hrest] at h
          have he : e2 = e := by simpa using h
          rw [he] at hrest
          obtain ⟨seg2, hmem, f, hf, hrseg, hbl⟩ := ih e hrest
          exact ⟨seg2, List.mem_cons_of_mem seg hmem, f, hf, hrseg, hbl⟩
        | ok s2 =>
          rw [hrest] at h
          exact absurd h (by simp)
  refine ⟨hget, hseg, hblame, ?_⟩
  intro ev segs
  induction segs with
  | nil =>
    intro _
    exact ⟨"", rfl⟩
  | cons seg rest ih =>
    intro hall
    have hr : ∃ s, renderSegment ev seg = Except.ok s := by
      cases hf : seg.field with
      | none =>
        refine ⟨seg.literal, ?_⟩
        unfold renderSegment
        rw [hf]
      | some f =>
        obtain ⟨e, hg, hc⟩ := hall seg (List.mem_cons_self seg rest) f hf
        exact ⟨seg.literal ++ "?", hseg ev seg f e hf hg hc⟩
    obtain ⟨s, hs⟩ := hr
    obtain ⟨t, ht⟩ :=
      ih (fun x hx g hg => hall x (List.mem_cons_of_mem seg hx) g hg)
    refine ⟨s ++ t, ?_⟩
    unfold eventFormat
    rw [hs, ht]

/-- Witness for `event_format_missing_fallback` on the event
`name = "Pikachu"`: the missing `iv` field renders as `"?"`; the template
whose only field is `name` with the unknown conversion `!x` makes
`Event.format` raise `ValueError`, blamed on that present-value segment;
and a template whose fields (`iv`, `attack` — the latter with a `!d`
conversion and a bogus spec) are all missing formats without raising. -/
theorem event_format_missing_fallback_witness :
    getFieldRaw [("name", PyVal.str "Pikachu")]
      ⟨FieldHead.name "iv", [], none, ""⟩ = Except.error PyExc.keyError ∧
    renderSegment [("name", PyVal.str "Pikachu")]
      ⟨" iv ", some ⟨FieldHead.name "iv", [], none, ""⟩⟩ =
      Except.ok (" iv " ++ "?") ∧
    eventFormat [("name", PyVal.str "Pikachu")]
      [⟨"", some ⟨FieldHead.name "name", [], some 'x', ""⟩⟩] =
      Except.error PyExc.valueError ∧
    (∃ seg ∈ [(⟨"", some ⟨FieldHead.name "name", [], some 'x', ""⟩⟩ : Segment)],
      ∃ f, seg.field = some f ∧
        renderSegment [("name", PyVal.str "Pikachu")] seg =
          Except.error PyExc.valueError ∧
        ∀ e', getFieldRaw [("name", PyVal.str "Pikachu")] f =
          Except.error e' → caught e' = false) ∧
    ∃ s, eventFormat [("name", PyVal.str "Pikachu")]
      [⟨"Spawn ", some ⟨FieldHead.name "iv", [], none, ""⟩⟩,
       ⟨" atk ", some ⟨FieldHead.name "attack", [], some 'd', "x"⟩⟩] =
      Except.ok s :=
  ⟨rfl,
   event_format_missing_fallback.2.1 [("name", PyVal.str "Pikachu")]
     ⟨" iv ", some ⟨FieldHead.name "iv", [], none, ""⟩⟩
     ⟨FieldHead.name "iv", [], none, ""⟩ PyExc.keyError rfl rfl rfl,
   rfl,
   event_format_missing_fallback.2.2.1 [("name", PyVal.str "Pikachu")]
     [⟨"", some ⟨FieldHead.name "name", [], some 'x', ""⟩⟩]
     PyExc.valueError rfl,
   event_format_missing_fallback.2.2.2 [("name", PyVal.str "Pikachu")]
     [⟨"Spawn ", some ⟨FieldHead.name "iv", [], none, ""⟩⟩,
      ⟨" atk ", some ⟨FieldHead.name "attack", [], some 'd', "x"⟩⟩]
     (by
       intro seg hs f hf
       rcases List.mem_cons.mp hs with h | h
       · subst h
         simp only [Option.some.injEq] at hf
         subst hf
         exact ⟨PyExc.keyError, rfl, rfl⟩
       · rcases List.mem_cons.mp h with h2 | h2
         · subst h2
           simp only [Option.some.injEq] at hf
           subst hf
           exact ⟨PyExc.keyError, rfl, rfl⟩
         · cases h2)⟩
